import Mathlib

/-!
Verification development for the Meshery Linkerd adapter
(`linkerd/linkerd.go`).

The shallow embedding models the per-document apply loop of
`applyConfigChange`, the operation dispatch of `ApplyOperation`, the event
stream delivery step of `StreamEvents`, and the node-port extraction of
`getSVCPort`.  Calls to the Kubernetes cluster (decoding through the
composed scheme, REST-mapping resolution through live discovery, and
create/delete/get mutations) are external effects; their outcomes are
modelled as oracle inputs attached to each manifest document
(`Fragment`), so every definition is executable and every run of the
embedded code is determined by its inputs.
-/

/-- The (group, version, kind) identity produced by decoding a document. -/
structure GVK where
  group : String
  version : String
  kind : String
deriving DecidableEq, Repr

/-- A group-version-resource triple, the `mapping.Resource` used to address
the dynamic client.  The zero value (all fields empty) corresponds to the
zero `meta.RESTMapping{}` that `applyConfigChange` initialises
`mappingNamespace` with. -/
structure GVR where
  group : String
  version : String
  resource : String
deriving DecidableEq, Repr

/-- The outcome of `restmapper.RESTMapping`: the plural resource and the
scope name (`"root"` for cluster-scoped resources, `"namespace"` for
namespaced ones, compared by the code against the literal `"root"`). -/
structure Mapping where
  resource : GVR
  scopeName : String
deriving DecidableEq, Repr

/-- The object data relevant to the apply loop: the decoded kind identity
plus the `GetName()` / `GetNamespace()` fields of the unstructured
content.  (`runtime.DefaultUnstructuredConverter.ToUnstructured` preserves
the kind, so `data.GetObjectKind().GroupVersionKind().Kind` agrees with
the kind returned by the decoder.) -/
structure DecodedObj where
  gvk : GVK
  name : String
  ns : String
deriving DecidableEq, Repr

/-- Result of `decode([]byte(f), nil, nil)`: either an error (the document
is skipped) or an object together with its kind identity. -/
inductive DecodeOutcome
  | fail
  | ok (obj : DecodedObj)
deriving DecidableEq, Repr

/-- Classification of an error returned by a dynamic-client mutation, as
tested by `kubeerror.IsAlreadyExists` / `kubeerror.IsNotFound`. -/
inductive KubeErrKind
  | alreadyExists
  | notFound
  | other
deriving DecidableEq, Repr

/-- One document of a manifest batch (one element of
`strings.Split(deploymentYAML, "\n---\n")`), together with the oracle
responses of the external collaborators for this document:
the decoder result, the discovery/REST-mapping result (`none` models a
failure of `GetAPIGroupResources` or of `RESTMapping`), whether
`ToUnstructured` succeeds, and the cluster's response to the single
create or delete call issued for this document (`none` = success). -/
structure Fragment where
  raw : String
  decodeRes : DecodeOutcome
  mappingRes : Option Mapping
  convertOk : Bool
  mutationRes : Option KubeErrKind
deriving DecidableEq, Repr

/-- A create or delete call issued against the dynamic client.  Root
variants carry no namespace qualifier (`Resource(res).Create/Delete`),
the namespaced variants address `Resource(res).Namespace(ns)`.  The last
field records the kind of the object the call was issued for. -/
inductive Call
  | createRoot (res : GVR) (name : String) (kind : String)
  | deleteRoot (res : GVR) (name : String) (kind : String)
  | createNs (res : GVR) (ns : String) (name : String) (kind : String)
  | deleteNs (res : GVR) (ns : String) (name : String) (kind : String)
deriving DecidableEq, Repr

/-- The kind recorded in a call. -/
def Call.kindOf : Call → String
  | .createRoot _ _ k => k
  | .deleteRoot _ _ k => k
  | .createNs _ _ _ k => k
  | .deleteNs _ _ _ k => k

/-- The object name recorded in a call. -/
def Call.nameOf : Call → String
  | .createRoot _ n _ => n
  | .deleteRoot _ n _ => n
  | .createNs _ _ n _ => n
  | .deleteNs _ _ n _ => n

/-- Whether the call is a delete. -/
def Call.isDelete : Call → Bool
  | .deleteRoot _ _ _ => true
  | .deleteNs _ _ _ _ => true
  | _ => false

/-- Overall outcome of `applyConfigChange`: `nil` or a non-`nil` error. -/
inductive ApplyResult
  | success
  | failure
deriving DecidableEq, Repr

/-- Does `pat` occur at the head of `s`? -/
def charsPrefixOf : List Char → List Char → Bool
  | [], _ => true
  | _ :: _, [] => false
  | p :: ps, c :: cs => p == c && charsPrefixOf ps cs

/-- Does `pat` occur anywhere in `s`? -/
def charsSubOf (pat : List Char) : List Char → Bool
  | [] => charsPrefixOf pat []
  | c :: cs => charsPrefixOf pat (c :: cs) || charsSubOf pat cs

/-- `strContains s pat` is true when `pat` occurs as a contiguous
substring of `s`; this is the semantics of an unanchored
`regexp.MatchString` applied to a pattern with no metacharacters. -/
def strContains (s pat : String) : Bool :=
  charsSubOf pat.toList s.toList

/-- The sixteen alternatives of the `acceptedK8sTypes` regular expression
`(Namespace|Role|ClusterRole|RoleBinding|ClusterRoleBinding|ServiceAccount|
MutatingWebhookConfiguration|Secret|ValidatingWebhookConfiguration|
APIService|PodSecurityPolicy|ConfigMap|Service|Deployment|CronJob|
CustomResourceDefinition)` in source order. -/
def acceptedK8sTypes : List String :=
  ["Namespace", "Role", "ClusterRole", "RoleBinding", "ClusterRoleBinding",
   "ServiceAccount", "MutatingWebhookConfiguration", "Secret",
   "ValidatingWebhookConfiguration", "APIService", "PodSecurityPolicy",
   "ConfigMap", "Service", "Deployment", "CronJob",
   "CustomResourceDefinition"]

/-- `acceptedK8sTypes.MatchString kind`: the pattern is an alternation of
plain words with no anchors, so it matches exactly when one of the
sixteen words occurs as a substring of `kind`. -/
def matchesAccepted (kind : String) : Bool :=
  acceptedK8sTypes.any (fun p => strContains kind p)

/-- Zero `schema.GroupVersionResource`. -/
def zeroGVR : GVR := ⟨"", "", ""⟩

/-- The zero `meta.RESTMapping{}` assigned to `mappingNamespace` before
the loop (its scope interface is nil; only its `Resource` is ever read). -/
def zeroMapping : Mapping := ⟨zeroGVR, ""⟩

/-- The empty `unstructured.Unstructured{}` assigned to `dataNamespace`
before the loop: `GetName()` returns `""`. -/
def zeroObj : DecodedObj := ⟨⟨"", "", ""⟩, "", ""⟩

/-- How the per-document loop of `applyConfigChange` ends:
it either falls off the end of the batch carrying the deferred
namespace record `(mappingNamespace, dataNamespace)`, or it ends at a
`return err` (a conversion failure or a fatal mutation error), or it
ends at one of the two `return nil` statements inside the loop (failure
of `GetAPIGroupResources` or of `RESTMapping`). -/
inductive LoopOut
  | finished (st : Mapping × DecodedObj)
  | abortedErr
  | abortedNil
deriving DecidableEq, Repr

/-- The document loop of `applyConfigChange` (`for _, f := range
sepYamlfiles`), translated fragment by fragment.  `st` is the pair
`(mappingNamespace, dataNamespace)`.  Returns the list of issued calls in
order plus how the loop ended. -/
def applyLoop (d : Bool) (st : Mapping × DecodedObj) :
    List Fragment → List Call × LoopOut
  | [] => ([], .finished st)
  | f :: fs =>
    if f.raw = "\n" ∨ f.raw = "" then
      applyLoop d st fs
    else
      match f.decodeRes with
      | .fail => applyLoop d st fs
      | .ok obj =>
        if matchesAccepted obj.gvk.kind = true then
          match f.mappingRes with
          | none => ([], .abortedNil)
          | some mapping =>
            if f.convertOk = true then
              if mapping.scopeName = "root" then
                if d then
                  if obj.gvk.kind = "Namespace" then
                    applyLoop d (mapping, obj) fs
                  else
                    let c : Call := .deleteRoot mapping.resource obj.name obj.gvk.kind
                    match f.mutationRes with
                    | none =>
                      let r := applyLoop d st fs ; (c :: r.1, r.2)
                    | some .notFound =>
                      let r := applyLoop d st fs ; (c :: r.1, r.2)
                    | some .alreadyExists => ([c], .abortedErr)
                    | some .other => ([c], .abortedErr)
                else
                  let c : Call := .createRoot mapping.resource obj.name obj.gvk.kind
                  match f.mutationRes with
                  | none =>
                    let r := applyLoop d st fs ; (c :: r.1, r.2)
                  | some .alreadyExists =>
                    let r := applyLoop d st fs ; (c :: r.1, r.2)
                  | some .notFound => ([c], .abortedErr)
                  | some .other => ([c], .abortedErr)
              else
                if d then
                  let c : Call := .deleteNs mapping.resource obj.ns obj.name obj.gvk.kind
                  match f.mutationRes with
                  | none =>
                    let r := applyLoop d st fs ; (c :: r.1, r.2)
                  | some .notFound =>
                    let r := applyLoop d st fs ; (c :: r.1, r.2)
                  | some .alreadyExists => ([c], .abortedErr)
                  | some .other => ([c], .abortedErr)
                else
                  let c : Call := .createNs mapping.resource obj.ns obj.name obj.gvk.kind
                  match f.mutationRes with
                  | none =>
                    let r := applyLoop d st fs ; (c :: r.1, r.2)
                  | some .alreadyExists =>
                    let r := applyLoop d st fs ; (c :: r.1, r.2)
                  | some .notFound => ([c], .abortedErr)
                  | some .other => ([c], .abortedErr)
            else ([], .abortedErr)
        else
          applyLoop d st fs

/-- `applyConfigChange` starting from an arbitrary deferred-namespace
state: runs the loop and then, as the source does after the loop,
executes the final `if deleteOpts && dataNamespace.GetName() !=
"default"` namespace deletion, whose error — of any classification — is
returned as the batch result. `nsRes` is the cluster's response to that
final delete call. -/
def applyConfigChangeAux (d : Bool) (st : Mapping × DecodedObj)
    (frags : List Fragment) (nsRes : Option KubeErrKind) :
    List Call × ApplyResult :=
  match applyLoop d st frags with
  | (tr, .abortedErr) => (tr, .failure)
  | (tr, .abortedNil) => (tr, .success)
  | (tr, .finished fin) =>
    if d then
      if fin.2.name = "default" then (tr, .success)
      else
        (tr ++ [Call.deleteRoot fin.1.resource fin.2.name fin.2.gvk.kind],
         match nsRes with
         | some _ => .failure
         | none => .success)
    else (tr, .success)

/-- `applyConfigChange(ctx, deploymentYAML, namespace, deleteOpts)`,
taking the already-split document list.  The deferred namespace record
starts at the zero mapping and the empty unstructured object. -/
def applyConfigChange (d : Bool) (frags : List Fragment)
    (nsRes : Option KubeErrKind) : List Call × ApplyResult :=
  applyConfigChangeAux d (zeroMapping, zeroObj) frags nsRes

/-! ## Specification-side characterization of the loop

The definitions below restate the behaviour of `applyConfigChange` in the
spec's vocabulary — which documents are acted on, which are deferred,
which mutation errors are fatal, and what call a document gives rise
to — so that the implementation can be proved equal to a trace built by
`filter`/`takeWhile` combinators over the batch. -/

/-- A document is acted on when it is non-blank, decodes successfully,
and its kind matches the allow-list pattern. -/
def actedOn (f : Fragment) : Bool :=
  if f.raw = "\n" ∨ f.raw = "" then false
  else
    match f.decodeRes with
    | .fail => false
    | .ok obj => matchesAccepted obj.gvk.kind

/-- The decoded object of a fragment (defaulting to the zero object when
decoding failed; only used on fragments that decode). -/
def fragObj (f : Fragment) : DecodedObj :=
  match f.decodeRes with
  | .fail => zeroObj
  | .ok obj => obj

/-- The resolved mapping of a fragment (defaulting to the zero mapping;
only used on fragments whose resolution succeeds). -/
def fragMapping (f : Fragment) : Mapping :=
  f.mappingRes.getD zeroMapping

/-- A fragment whose delete is deferred to the end of the batch: a
cluster-scoped (`"root"`) Namespace in a delete batch. -/
def isDeferredNs (d : Bool) (f : Fragment) : Bool :=
  d && ((fragMapping f).scopeName == "root")
    && ((fragObj f).gvk.kind == "Namespace")

/-- A mutation error is fatal unless it is `AlreadyExists` on a create or
`NotFound` on a delete. -/
def fatalFor (d : Bool) (f : Fragment) : Bool :=
  match f.mutationRes with
  | none => false
  | some .alreadyExists => d
  | some .notFound => !d
  | some .other => true

/-- The single call issued for an acted-on document, determined by the
operation direction and the resolved scope. -/
def callFor (d : Bool) (f : Fragment) : Call :=
  let m := fragMapping f
  let o := fragObj f
  if m.scopeName = "root" then
    if d then .deleteRoot m.resource o.name o.gvk.kind
    else .createRoot m.resource o.name o.gvk.kind
  else
    if d then .deleteNs m.resource o.ns o.name o.gvk.kind
    else .createNs m.resource o.ns o.name o.gvk.kind

/-- The loop keeps going past a document when it is deferred (no call is
issued) or its mutation outcome is not fatal. -/
def keepGoing (d : Bool) (f : Fragment) : Bool :=
  isDeferredNs d f || !fatalFor d f

/-- The deferred-namespace record left by a list of processed documents:
the mapping and object of the last deferred Namespace, or the incoming
record if none was deferred. -/
def lastDeferred (d : Bool) : Mapping × DecodedObj → List Fragment → Mapping × DecodedObj
  | st, [] => st
  | st, f :: fs =>
    lastDeferred d (if isDeferredNs d f then (fragMapping f, fragObj f) else st) fs

/-- Spec-side trace of a batch, starting from deferred record `st`:
the acted-on documents are taken in textual order up to the first fatal
one; each non-deferred document of that prefix contributes its call; a
fatal document additionally contributes its own (failing) call and makes
the batch fail; otherwise the batch ends with the final namespace
deletion applied to the last deferred record, skipped when the recorded
name is `"default"`, whose error — of any classification — fails the
batch. -/
def specTraceAux (d : Bool) (st : Mapping × DecodedObj)
    (frags : List Fragment) (nsRes : Option KubeErrKind) :
    List Call × ApplyResult :=
  let acted := frags.filter actedOn
  let pre := acted.takeWhile (keepGoing d)
  let loopCalls := (pre.filter (fun f => !isDeferredNs d f)).map (callFor d)
  match acted.dropWhile (keepGoing d) with
  | f :: _ => (loopCalls ++ [callFor d f], .failure)
  | [] =>
    let fin := lastDeferred d st pre
    if d then
      if fin.2.name = "default" then (loopCalls, .success)
      else
        (loopCalls ++ [Call.deleteRoot fin.1.resource fin.2.name fin.2.gvk.kind],
         match nsRes with
         | some _ => .failure
         | none => .success)
    else (loopCalls, .success)

/-- Spec-side trace of a batch from the initial zero deferred record. -/
def specTrace (d : Bool) (frags : List Fragment) (nsRes : Option KubeErrKind) :
    List Call × ApplyResult :=
  specTraceAux d (zeroMapping, zeroObj) frags nsRes

/-- Prepend a call to a trace, keeping the result. -/
def consCall (c : Call) : List Call × ApplyResult → List Call × ApplyResult
  | (l, r) => (c :: l, r)

/-! ## ApplyOperation -/

/-- Severity of an emitted event (`meshes.EventType`). -/
inductive EventType
  | INFO
  | WARN
  | ERROR
deriving DecidableEq, Repr

/-- An event pushed onto the session's event channel
(`meshes.EventsResponse`). -/
structure EventsResponse where
  operationId : String
  eventType : EventType
  summary : String
  details : String
deriving DecidableEq, Repr

/-- The request accepted by `ApplyOperation` (`meshes.ApplyRuleRequest`).
A nil request is rejected up front and is not modelled. -/
structure ApplyRuleRequest where
  opName : String
  operationId : String
  ns : String
  deleteOp : Bool
  customBody : String
  username : String
deriving DecidableEq, Repr

deriving instance DecidableEq for Except

/-- Oracle outcomes of the collaborators invoked by `ApplyOperation`:
the external installer run (`executeInstall`), the manifest source
(`executeTemplate` for the template-backed sample apps, `getYAML` for the
fetched ones — both return an error string on failure), the namespace
labeling (`labelNamespaceForAutoInjection`), the manifest apply
(`applyConfigChange`), and the port lookup (`getSVCPort`). -/
structure OpEnv where
  installErr : Option String
  manifestErr : Option String
  labelErr : Option String
  applyErr : Option String
  portsRes : Except String (List Int)
deriving DecidableEq, Repr

/-- What a call to `ApplyOperation` produces: the synchronous return
value (an error, or the response echoing the operation id), the events
the spawned background task will push, whether a background task was
spawned, and whether any cluster access (labeling, apply, lookup) was
attempted on any path. -/
structure OpOutcome where
  response : Except String String
  events : List EventsResponse
  backgroundStarted : Bool
  clusterTouched : Bool
deriving DecidableEq, Repr

/-- Modelled from the spec: the operation-key constants
(`customOpCommand` and friends) are declared outside the provided source
file; §4.4 names a custom-YAML operation, a product install, and four
sample-application variants.  Only distinctness of the keys matters. -/
def customOpCommand : String := "custom"

/-- Modelled from the spec: the product-install operation key. -/
def installLinkerdCommand : String := "install_linkerd"

/-- Modelled from the spec: the Books sample-application key (manifest
fetched by name through `getYAML`). -/
def installBooksAppCommand : String := "install_books_app"

/-- Modelled from the spec: the HTTP Bin sample-application key
(manifest rendered from a local template). -/
def installHTTPBinApp : String := "install_http_bin"

/-- Modelled from the spec: the Istio Book Info sample-application key
(manifest rendered from a local template). -/
def installIstioBookInfoApp : String := "install_istio_book_info"

/-- Modelled from the spec: the Emojivoto sample-application key
(manifest fetched by name through `getYAML`). -/
def installEmojiVotoCommand : String := "install_emoji_voto"

/-- Modelled from the spec: the static registry `supportedOps` is
declared outside the provided source file; §4.4 and §6 describe it as a
closed registry whose keys are exactly the operations dispatched by
`ApplyOperation` (the round-trip property of §8).  Modelled as the list
of its keys. -/
def supportedOps : List String :=
  [customOpCommand, installLinkerdCommand, installBooksAppCommand,
   installHTTPBinApp, installIstioBookInfoApp, installEmojiVotoCommand]

/-- Go's `%v` rendering of an int64 slice: values space-separated inside
brackets. -/
def fmtPorts (ports : List Int) : String :=
  "[" ++ String.intercalate " " (ports.map toString) ++ "]"

/-- The port message computed after a successful sample-app deploy:
one phrasing for exactly one port, another for several, and the empty
string when no port was collected. -/
def portMsg (ports : List Int) : String :=
  if ports.length = 1 then
    "The service is possibly available on port: " ++ fmtPorts ports
  else if ports.length > 1 then
    "The service is possibly available on one of the following ports: "
      ++ fmtPorts ports
  else ""

/-- Whether a port lookup succeeded. -/
def portsOk : Except String (List Int) → Bool
  | .ok _ => true
  | .error _ => false

/-- The events pushed by the background task of the product-install
branch. -/
def installEvents (req : ApplyRuleRequest) (env : OpEnv) : List EventsResponse :=
  let opName1 := if req.deleteOp then "removing" else "deploying"
  match env.installErr with
  | some e =>
    [⟨req.operationId, .ERROR, "Error while " ++ opName1 ++ " Linkerd", e⟩]
  | none =>
    let opNm := if req.deleteOp then "removed" else "deployed"
    [⟨req.operationId, .INFO, "Linkerd " ++ opNm ++ " successfully",
      "The latest version of Linkerd is now " ++ opNm ++ "."⟩]

/-- The events pushed by the shared background task of the four
sample-application branches: label the namespace (deploy only), apply
the manifest, then on deploy look the service ports up; each failure
point pushes one event and stops, success pushes one INFO event. -/
def sampleAppEvents (req : ApplyRuleRequest) (env : OpEnv)
    (appName : String) : List EventsResponse :=
  let opName1 := if req.deleteOp then "removing" else "deploying"
  let errEvent : String → EventsResponse := fun e =>
    ⟨req.operationId, .ERROR,
     "Error while " ++ opName1 ++ " the canonical " ++ appName, e⟩
  match req.deleteOp, env.labelErr with
  | false, some e => [errEvent e]
  | _, _ =>
    match env.applyErr with
    | some e => [errEvent e]
    | none =>
      if req.deleteOp then
        [⟨req.operationId, .INFO, appName ++ " removed successfully",
          appName ++ " is now removed. " ++ portMsg []⟩]
      else
        match env.portsRes with
        | .error e =>
          [⟨req.operationId, .WARN,
            appName ++ " is deployed but unable to retrieve the port info for the service at the moment",
            e⟩]
        | .ok ports =>
          [⟨req.operationId, .INFO, appName ++ " deployed successfully",
            appName ++ " is now deployed. " ++ portMsg ports⟩]

/-- `ApplyOperation`: validate the operation key against the registry
and the custom body, then dispatch.  The custom operation applies
synchronously; the install and sample-app operations spawn a background
task and return the echoed operation id at once.  The four sample-app
cases share one tail (fall-through in the source), differing in the
display name and in the manifest source, and the sample-app manifest is
resolved synchronously before the task is spawned. -/
def ApplyOperation (req : ApplyRuleRequest) (env : OpEnv) : OpOutcome :=
  if supportedOps.contains req.opName then
    if req.opName = customOpCommand ∧ req.customBody = "" then
      ⟨.error ("operation id: " ++ req.operationId
          ++ ", error: yaml body is empty for " ++ req.opName ++ " operation"),
       [], false, false⟩
    else if req.opName = customOpCommand then
      match env.applyErr with
      | some e => ⟨.error e, [], false, true⟩
      | none => ⟨.ok req.operationId, [], false, true⟩
    else if req.opName = installLinkerdCommand then
      ⟨.ok req.operationId, installEvents req env, true, true⟩
    else
      let appName :=
        if req.opName = installBooksAppCommand then "Linkerd Books App"
        else if req.opName = installHTTPBinApp then "HTTP Bin App"
        else if req.opName = installIstioBookInfoApp then
          "Istio canonical Book Info App"
        else "Emojivoto App"
      match env.manifestErr with
      | some e => ⟨.error e, [], false, false⟩
      | none => ⟨.ok req.operationId, sampleAppEvents req env appName, true, true⟩
  else
    ⟨.error ("operation id: " ++ req.operationId ++ ", error: "
        ++ req.opName ++ " is not a valid operation name"),
     [], false, false⟩

/-- Spec-side severity of the single event an asynchronous branch pushes:
ERROR when the background task failed (install failure; labeling failure
on a deploy; apply failure), WARN when a deploy succeeded but the port
lookup failed, INFO otherwise. -/
def expectedSeverity (req : ApplyRuleRequest) (env : OpEnv) : EventType :=
  if req.opName = installLinkerdCommand then
    if env.installErr.isSome then .ERROR else .INFO
  else if req.deleteOp = false ∧ env.labelErr.isSome then .ERROR
  else if env.applyErr.isSome then .ERROR
  else if req.deleteOp = false ∧ portsOk env.portsRes = false then .WARN
  else .INFO

/-! ## StreamEvents -/

/-- Result of one iteration of the `StreamEvents` delivery loop over the
session queue: either the loop continues (with the event it sent, if
one was available, and having slept the fixed interval), or delivery
failed, the failed event was re-enqueued, and the loop returns an
error. -/
inductive StepResult
  | continued (queue : List EventsResponse) (sent : Option EventsResponse)
      (slept : Bool)
  | errored (queue : List EventsResponse) (failed : EventsResponse)
deriving DecidableEq, Repr

/-- The sleep interval of the delivery loop, in milliseconds. -/
def streamSleepMs : Nat := 500

/-- One iteration of the `StreamEvents` loop: poll the channel without
blocking; if an event is available send it, re-enqueueing it and
returning an error when the send fails (the asynchronous re-enqueue is
modelled as appending at the back of the queue); in every continuing
iteration sleep the fixed interval. -/
def streamStep (sendOk : EventsResponse → Bool) :
    List EventsResponse → StepResult
  | [] => .continued [] none true
  | e :: rest =>
    if sendOk e then .continued rest (some e) true
    else .errored (rest ++ [e]) e

/-- Run the delivery loop for a bounded number of iterations, collecting
the events delivered in order, the final queue, and whether the loop
ended in a delivery error. -/
def streamRun (sendOk : EventsResponse → Bool) :
    Nat → List EventsResponse → List EventsResponse × List EventsResponse × Bool
  | 0, q => ([], q, false)
  | n + 1, q =>
    match streamStep sendOk q with
    | .continued q2 (some ev) _ =>
      let r := streamRun sendOk n q2
      (ev :: r.1, r.2.1, r.2.2)
    | .continued q2 none _ => streamRun sendOk n q2
    | .errored q2 _ => ([], q2, true)

/-! ## getSVCPort -/

/-- The value found under the `"nodePort"` key of a port declaration:
an int64 as produced by JSON decoding, or a value of any other dynamic
type (whose failed type assertion the code ignores, yielding 0). -/
inductive NodePortVal
  | int64 (n : Int)
  | other
deriving DecidableEq, Repr

/-- One element of `spec.ports`: it may or may not carry a `"nodePort"`
key. -/
structure SvcPort where
  nodePort : Option NodePortVal
deriving DecidableEq, Repr

/-- The part of a retrieved Service object that `getSVCPort` reads. -/
structure SvcObj where
  ports : List SvcPort
deriving DecidableEq, Repr

/-- The numeric value the code appends for a present `"nodePort"` key:
the int64 value, or 0 when the type assertion fails. -/
def npVal : NodePortVal → Int
  | .int64 n => n
  | .other => 0

/-- The collection loop of `getSVCPort`: every port declaration carrying
a `"nodePort"` key contributes one element, in declaration order. -/
def extractNodePorts : List SvcPort → List Int
  | [] => []
  | p :: rest =>
    match p.nodePort with
    | some v => npVal v :: extractNodePorts rest
    | none => extractNodePorts rest

/-- `getSVCPort(ctx, svc, namespace)`: on lookup failure wrap and return
the error; otherwise collect the node ports of the retrieved Service. -/
def getSVCPort (lookup : Except String SvcObj) : Except String (List Int) :=
  match lookup with
  | .error e => .error ("unable to get service details: " ++ e)
  | .ok svc => .ok (extractNodePorts svc.ports)

/-- The declared node-port value of a port entry, when it is declared
and well-typed. -/
def declaredVal (p : SvcPort) : Option Int :=
  match p.nodePort with
  | some (.int64 n) => some n
  | _ => none

/-! ## Concrete batch documents used by the claim instances -/

/-- A namespaced ConfigMap document that decodes, resolves and applies
cleanly. -/
def c1cm : Fragment :=
  ⟨"a", .ok ⟨⟨"", "v1", "ConfigMap"⟩, "cm1", "default"⟩,
   some ⟨⟨"", "v1", "configmaps"⟩, "namespace"⟩, true, none⟩

/-- A Secret document whose REST-mapping resolution fails. -/
def c1sec : Fragment :=
  ⟨"b", .ok ⟨⟨"", "v1", "Secret"⟩, "s1", "default"⟩, none, true, none⟩

/-- A Service document that would apply cleanly. -/
def c1svc : Fragment :=
  ⟨"c", .ok ⟨⟨"", "v1", "Service"⟩, "svc1", "default"⟩,
   some ⟨⟨"", "v1", "services"⟩, "namespace"⟩, true, none⟩

/-- A Deployment document that applies cleanly, for the C1 witness. -/
def c1w : Fragment :=
  ⟨"d", .ok ⟨⟨"apps", "v1", "Deployment"⟩, "dep1", "ns1"⟩,
   some ⟨⟨"apps", "v1", "deployments"⟩, "namespace"⟩, true, none⟩

/-- A cluster-scoped Namespace document named `"a"`, deleted cleanly. -/
def c2nsA : Fragment :=
  ⟨"a", .ok ⟨⟨"", "v1", "Namespace"⟩, "a", ""⟩,
   some ⟨⟨"", "v1", "namespaces"⟩, "root"⟩, true, none⟩

/-- A cluster-scoped Namespace document named `"b"`, deleted cleanly. -/
def c2nsB : Fragment :=
  ⟨"b", .ok ⟨⟨"", "v1", "Namespace"⟩, "b", ""⟩,
   some ⟨⟨"", "v1", "namespaces"⟩, "root"⟩, true, none⟩

/-- A ConfigMap document for the C2 witness delete batch. -/
def c2cm : Fragment :=
  ⟨"c", .ok ⟨⟨"", "v1", "ConfigMap"⟩, "cm2", "foo"⟩,
   some ⟨⟨"", "v1", "configmaps"⟩, "namespace"⟩, true, none⟩

/-- A cluster-scoped Namespace document named `"foo"`. -/
def c2nsFoo : Fragment :=
  ⟨"d", .ok ⟨⟨"", "v1", "Namespace"⟩, "foo", ""⟩,
   some ⟨⟨"", "v1", "namespaces"⟩, "root"⟩, true, none⟩

/-- The single-document delete batch of scenario E: a Namespace named
`"default"`. -/
def nsDefaultFrag : Fragment :=
  ⟨"e", .ok ⟨⟨"", "v1", "Namespace"⟩, "default", ""⟩,
   some ⟨⟨"", "v1", "namespaces"⟩, "root"⟩, true, none⟩

/-- A ConfigMap document applying cleanly, for the C3 failing input. -/
def c3cm : Fragment :=
  ⟨"a", .ok ⟨⟨"", "v1", "ConfigMap"⟩, "c3", "default"⟩,
   some ⟨⟨"", "v1", "configmaps"⟩, "namespace"⟩, true, none⟩

/-- A ServiceAccount document whose discovery/REST-mapping resolution
fails, for the C3 failing input. -/
def c3sa : Fragment :=
  ⟨"b", .ok ⟨⟨"", "v1", "ServiceAccount"⟩, "sa3", "default"⟩,
   none, true, none⟩

/-- A Service document after the resolution failure, for the C3 failing
input. -/
def c3svc : Fragment :=
  ⟨"c", .ok ⟨⟨"", "v1", "Service"⟩, "svc3", "default"⟩,
   some ⟨⟨"", "v1", "services"⟩, "namespace"⟩, true, none⟩

/-- A cluster-scoped Namespace named `"foo"` whose end-of-batch delete
will answer NotFound, for the C4 counterexample. -/
def c4ns : Fragment :=
  ⟨"a", .ok ⟨⟨"", "v1", "Namespace"⟩, "foo", ""⟩,
   some ⟨⟨"", "v1", "namespaces"⟩, "root"⟩, true, none⟩

/-- A ConfigMap create that answers AlreadyExists, for the C4 witness. -/
def c4cm : Fragment :=
  ⟨"b", .ok ⟨⟨"", "v1", "ConfigMap"⟩, "cm4", "ns4"⟩,
   some ⟨⟨"", "v1", "configmaps"⟩, "namespace"⟩, true,
   some .alreadyExists⟩

/-- A Secret create following the tolerated conflict, for the C4
witness. -/
def c4sec : Fragment :=
  ⟨"c", .ok ⟨⟨"", "v1", "Secret"⟩, "s4", "ns4"⟩,
   some ⟨⟨"", "v1", "secrets"⟩, "namespace"⟩, true, none⟩

/-- The HTTP Bin deploy request of the C5 counterexample. -/
def c5req : ApplyRuleRequest :=
  ⟨installHTTPBinApp, "op5", "ns5", false, "", "user5"⟩

/-- An environment whose template rendering fails, for the C5
counterexample. -/
def c5env : OpEnv := ⟨none, some "template failure", none, none, .ok []⟩

/-- The Emojivoto deploy request of the C5 witness. -/
def c5wreq : ApplyRuleRequest :=
  ⟨installEmojiVotoCommand, "op5w", "ns5w", false, "", "user5"⟩

/-- An environment whose port lookup fails after a clean deploy, for the
C5 witness. -/
def c5wenv : OpEnv := ⟨none, none, none, none, .error "port lookup failed"⟩

/-- A document of kind `ServiceList`: decodable through the composed
scheme (the client-go scheme registers the List kinds), not one of the
sixteen allow-listed kinds, but matched by the unanchored pattern
because `"Service"` occurs inside `"ServiceList"`. -/
def c6svcList : Fragment :=
  ⟨"a", .ok ⟨⟨"", "v1", "ServiceList"⟩, "sl", "ns6"⟩,
   some ⟨⟨"", "v1", "servicelists"⟩, "namespace"⟩, true, none⟩

/-- A ConfigMap document for the C6 witness. -/
def c6cm : Fragment :=
  ⟨"b", .ok ⟨⟨"", "v1", "ConfigMap"⟩, "cm6", "ns6"⟩,
   some ⟨⟨"", "v1", "configmaps"⟩, "namespace"⟩, true, none⟩

/-- A Pod document (kind not matched by the pattern), for the C6
witness. -/
def c6pod : Fragment :=
  ⟨"c", .ok ⟨⟨"", "v1", "Pod"⟩, "p6", "ns6"⟩,
   some ⟨⟨"", "v1", "pods"⟩, "namespace"⟩, true, none⟩

/-- A request with an operation key outside the registry, for the C7
witness. -/
def c7req : ApplyRuleRequest := ⟨"no_such_op", "op7", "ns7", false, "", "u"⟩

/-- A custom-YAML request with an empty body, for the C7 witness. -/
def c7req2 : ApplyRuleRequest := ⟨customOpCommand, "op7b", "ns7", false, "", "u"⟩

/-- A benign environment for the C7 witness. -/
def c7env : OpEnv := ⟨none, none, none, none, .ok []⟩

/-- The event of the C8 witness. -/
def c8ev : EventsResponse := ⟨"op8", .INFO, "sum", "det"⟩

/-- The Service object of the C9 witness: one declared node port, one
port without a node port. -/
def c9svc : SvcObj := ⟨[⟨some (.int64 30001)⟩, ⟨none⟩]⟩

/-! ## Step lemmas relating the loop to the spec-side trace -/

theorem actedOn_true_elim {f : Fragment} (h : actedOn f = true) :
    ¬(f.raw = "\n" ∨ f.raw = "") ∧
      ∃ obj, f.decodeRes = .ok obj ∧ matchesAccepted obj.gvk.kind = true := by
  by_cases h1 : f.raw = "\n" ∨ f.raw = ""
  · simp [actedOn, h1] at h
  · cases hdec : f.decodeRes with
    | fail => simp [actedOn, h1, hdec] at h
    | ok obj =>
      exact ⟨h1, obj, rfl, by simpa [actedOn, h1, hdec] using h⟩

theorem applyLoop_skip (d : Bool) (st : Mapping × DecodedObj)
    (f : Fragment) (fs : List Fragment) (h : actedOn f = false) :
    applyLoop d st (f :: fs) = applyLoop d st fs := by
  by_cases h1 : f.raw = "\n" ∨ f.raw = ""
  · simp [applyLoop, h1]
  · cases hdec : f.decodeRes with
    | fail => simp [applyLoop, h1, hdec]
    | ok obj =>
      have hm : matchesAccepted obj.gvk.kind = false := by
        simpa [actedOn, h1, hdec] using h
      simp [applyLoop, h1, hdec, hm]

theorem specTraceAux_skip (d : Bool) (st : Mapping × DecodedObj)
    (f : Fragment) (fs : List Fragment) (nsRes : Option KubeErrKind)
    (h : actedOn f = false) :
    specTraceAux d st (f :: fs) nsRes = specTraceAux d st fs nsRes := by
  simp [specTraceAux, List.filter_cons, h]

theorem aux_congr (d : Bool) (st st2 : Mapping × DecodedObj)
    (f : Fragment) (fs : List Fragment) (nsRes : Option KubeErrKind)
    (h : applyLoop d st (f :: fs) = applyLoop d st2 fs) :
    applyConfigChangeAux d st (f :: fs) nsRes
      = applyConfigChangeAux d st2 fs nsRes := by
  simp [applyConfigChangeAux, h]

theorem applyLoop_defer (st : Mapping × DecodedObj) (f : Fragment)
    (fs : List Fragment) (obj : DecodedObj) (m : Mapping)
    (h1 : ¬(f.raw = "\n" ∨ f.raw = "")) (hdec : f.decodeRes = .ok obj)
    (_hreg : matchesAccepted obj.gvk.kind = true) (hm : f.mappingRes = some m)
    (hc : f.convertOk = true) (hs : m.scopeName = "root")
    (hk : obj.gvk.kind = "Namespace") :
    applyLoop true st (f :: fs) = applyLoop true (m, obj) fs := by
  have hNS : matchesAccepted "Namespace" = true := by decide
  simp [applyLoop, h1, hdec, hm, hc, hs, hk, hNS]

theorem specTraceAux_defer (st : Mapping × DecodedObj) (f : Fragment)
    (fs : List Fragment) (nsRes : Option KubeErrKind) (obj : DecodedObj)
    (m : Mapping)
    (h1 : ¬(f.raw = "\n" ∨ f.raw = "")) (hdec : f.decodeRes = .ok obj)
    (hreg : matchesAccepted obj.gvk.kind = true) (hm : f.mappingRes = some m)
    (hs : m.scopeName = "root") (hk : obj.gvk.kind = "Namespace") :
    specTraceAux true st (f :: fs) nsRes
      = specTraceAux true (m, obj) fs nsRes := by
  have hact : actedOn f = true := by simp [actedOn, h1, hdec, hreg]
  have hfm : fragMapping f = m := by simp [fragMapping, hm]
  have hfo : fragObj f = obj := by simp [fragObj, hdec]
  have hdef : isDeferredNs true f = true := by
    simp [isDeferredNs, hfm, hfo, hs, hk]
  have hkeep : keepGoing true f = true := by simp [keepGoing, hdef]
  simp only [specTraceAux, List.filter_cons, hact, if_true]
  rw [List.takeWhile_cons_of_pos hkeep, List.dropWhile_cons_of_pos hkeep]
  simp [List.filter_cons, hdef, lastDeferred, hfm, hfo]

theorem aux_cons (d : Bool) (st : Mapping × DecodedObj) (f : Fragment)
    (fs : List Fragment) (nsRes : Option KubeErrKind) (c : Call)
    (h : applyLoop d st (f :: fs)
        = (c :: (applyLoop d st fs).1, (applyLoop d st fs).2)) :
    applyConfigChangeAux d st (f :: fs) nsRes
      = consCall c (applyConfigChangeAux d st fs nsRes) := by
  cases hres : applyLoop d st fs with
  | mk tr out =>
    rw [hres] at h
    cases out with
    | finished fin =>
      cases d with
      | true =>
        by_cases hdef : fin.2.name = "default"
        · simp [applyConfigChangeAux, h, hres, consCall, hdef]
        · simp [applyConfigChangeAux, h, hres, consCall, hdef]
      | false => simp [applyConfigChangeAux, h, hres, consCall]
    | abortedErr => simp [applyConfigChangeAux, h, hres, consCall]
    | abortedNil => simp [applyConfigChangeAux, h, hres, consCall]

theorem applyLoop_cont (d : Bool) (st : Mapping × DecodedObj) (f : Fragment)
    (fs : List Fragment) (obj : DecodedObj) (m : Mapping)
    (h1 : ¬(f.raw = "\n" ∨ f.raw = "")) (hdec : f.decodeRes = .ok obj)
    (hreg : matchesAccepted obj.gvk.kind = true) (hm : f.mappingRes = some m)
    (hc : f.convertOk = true) (hnd : isDeferredNs d f = false)
    (hnf : fatalFor d f = false) :
    applyLoop d st (f :: fs)
      = (callFor d f :: (applyLoop d st fs).1, (applyLoop d st fs).2) := by
  have hfm : fragMapping f = m := by simp [fragMapping, hm]
  have hfo : fragObj f = obj := by simp [fragObj, hdec]
  by_cases hs : m.scopeName = "root"
  · cases d with
    | true =>
      have hk : ¬ obj.gvk.kind = "Namespace" := by
        intro hk
        simp [isDeferredNs, hfm, hfo, hs, hk] at hnd
      cases hmut : f.mutationRes with
      | none =>
        simp [applyLoop, h1, hdec, hreg, hm, hc, hs, hk, hmut, callFor, hfm, hfo]
      | some e =>
        cases e with
        | notFound =>
          simp [applyLoop, h1, hdec, hreg, hm, hc, hs, hk, hmut, callFor, hfm, hfo]
        | alreadyExists => simp [fatalFor, hmut] at hnf
        | other => simp [fatalFor, hmut] at hnf
    | false =>
      cases hmut : f.mutationRes with
      | none =>
        simp [applyLoop, h1, hdec, hreg, hm, hc, hs, hmut, callFor, hfm, hfo]
      | some e =>
        cases e with
        | alreadyExists =>
          simp [applyLoop, h1, hdec, hreg, hm, hc, hs, hmut, callFor, hfm, hfo]
        | notFound => simp [fatalFor, hmut] at hnf
        | other => simp [fatalFor, hmut] at hnf
  · cases d with
    | true =>
      cases hmut : f.mutationRes with
      | none =>
        simp [applyLoop, h1, hdec, hreg, hm, hc, hs, hmut, callFor, hfm, hfo]
      | some e =>
        cases e with
        | notFound =>
          simp [applyLoop, h1, hdec, hreg, hm, hc, hs, hmut, callFor, hfm, hfo]
        | alreadyExists => simp [fatalFor, hmut] at hnf
        | other => simp [fatalFor, hmut] at hnf
    | false =>
      cases hmut : f.mutationRes with
      | none =>
        simp [applyLoop, h1, hdec, hreg, hm, hc, hs, hmut, callFor, hfm, hfo]
      | some e =>
        cases e with
        | alreadyExists =>
          simp [applyLoop, h1, hdec, hreg, hm, hc, hs, hmut, callFor, hfm, hfo]
        | notFound => simp [fatalFor, hmut] at hnf
        | other => simp [fatalFor, hmut] at hnf

theorem specTraceAux_cont (d : Bool) (st : Mapping × DecodedObj)
    (f : Fragment) (fs : List Fragment) (nsRes : Option KubeErrKind)
    (hact : actedOn f = true) (hnd : isDeferredNs d f = false)
    (hnf : fatalFor d f = false) :
    specTraceAux d st (f :: fs) nsRes
      = consCall (callFor d f) (specTraceAux d st fs nsRes) := by
  have hkeep : keepGoing d f = true := by simp [keepGoing, hnf]
  simp only [specTraceAux, List.filter_cons, hact, if_true]
  rw [List.takeWhile_cons_of_pos hkeep, List.dropWhile_cons_of_pos hkeep]
  simp only [List.filter_cons, hnd, Bool.not_false, if_true, List.map_cons]
  rw [lastDeferred]
  simp only [hnd, if_neg Bool.false_ne_true]
  cases hdrop : (fs.filter actedOn).dropWhile (keepGoing d) with
  | cons g gs => simp [consCall]
  | nil =>
    cases d with
    | true =>
      by_cases hdef :
          (lastDeferred true st ((fs.filter actedOn).takeWhile (keepGoing true))).2.name
            = "default"
      · simp [consCall, hdef]
      · simp [consCall, hdef]
    | false => simp [consCall]

theorem applyLoop_fatal (d : Bool) (st : Mapping × DecodedObj) (f : Fragment)
    (fs : List Fragment) (obj : DecodedObj) (m : Mapping)
    (h1 : ¬(f.raw = "\n" ∨ f.raw = "")) (hdec : f.decodeRes = .ok obj)
    (hreg : matchesAccepted obj.gvk.kind = true) (hm : f.mappingRes = some m)
    (hc : f.convertOk = true) (hnd : isDeferredNs d f = false)
    (hfat : fatalFor d f = true) :
    applyLoop d st (f :: fs) = ([callFor d f], .abortedErr) := by
  have hfm : fragMapping f = m := by simp [fragMapping, hm]
  have hfo : fragObj f = obj := by simp [fragObj, hdec]
  cases hmut : f.mutationRes with
  | none => simp [fatalFor, hmut] at hfat
  | some e =>
    by_cases hs : m.scopeName = "root"
    · cases d with
      | true =>
        have hk : ¬ obj.gvk.kind = "Namespace" := by
          intro hk
          simp [isDeferredNs, hfm, hfo, hs, hk] at hnd
        cases e with
        | notFound => simp [fatalFor, hmut] at hfat
        | alreadyExists =>
          simp [applyLoop, h1, hdec, hreg, hm, hc, hs, hk, hmut, callFor, hfm, hfo]
        | other =>
          simp [applyLoop, h1, hdec, hreg, hm, hc, hs, hk, hmut, callFor, hfm, hfo]
      | false =>
        cases e with
        | alreadyExists => simp [fatalFor, hmut] at hfat
        | notFound =>
          simp [applyLoop, h1, hdec, hreg, hm, hc, hs, hmut, callFor, hfm, hfo]
        | other =>
          simp [applyLoop, h1, hdec, hreg, hm, hc, hs, hmut, callFor, hfm, hfo]
    · cases d with
      | true =>
        cases e with
        | notFound => simp [fatalFor, hmut] at hfat
        | alreadyExists =>
          simp [applyLoop, h1, hdec, hreg, hm, hc, hs, hmut, callFor, hfm, hfo]
        | other =>
          simp [applyLoop, h1, hdec, hreg, hm, hc, hs, hmut, callFor, hfm, hfo]
      | false =>
        cases e with
        | alreadyExists => simp [fatalFor, hmut] at hfat
        | notFound =>
          simp [applyLoop, h1, hdec, hreg, hm, hc, hs, hmut, callFor, hfm, hfo]
        | other =>
          simp [applyLoop, h1, hdec, hreg, hm, hc, hs, hmut, callFor, hfm, hfo]

theorem specTraceAux_fatal (d : Bool) (st : Mapping × DecodedObj)
    (f : Fragment) (fs : List Fragment) (nsRes : Option KubeErrKind)
    (hact : actedOn f = true) (hnd : isDeferredNs d f = false)
    (hfat : fatalFor d f = true) :
    specTraceAux d st (f :: fs) nsRes = ([callFor d f], .failure) := by
  have hkeep : keepGoing d f = false := by simp [keepGoing, hnd, hfat]
  simp only [specTraceAux, List.filter_cons, hact, if_true]
  rw [List.takeWhile_cons_of_neg (by simp [hkeep]),
    List.dropWhile_cons_of_neg (by simp [hkeep])]
  simp

theorem aux_fatal (d : Bool) (st : Mapping × DecodedObj) (f : Fragment)
    (fs : List Fragment) (nsRes : Option KubeErrKind) (c : Call)
    (h : applyLoop d st (f :: fs) = ([c], .abortedErr)) :
    applyConfigChangeAux d st (f :: fs) nsRes = ([c], .failure) := by
  simp [applyConfigChangeAux, h]

/-- The implementation loop (with its trailing namespace deletion) agrees
with the spec-side trace from any starting deferred record, provided
every acted-on document resolves its mapping and converts. -/
theorem applyAux_eq_spec (d : Bool) (frags : List Fragment) :
    ∀ (st : Mapping × DecodedObj) (nsRes : Option KubeErrKind),
      (∀ f ∈ frags, actedOn f = true →
        f.mappingRes.isSome = true ∧ f.convertOk = true) →
      applyConfigChangeAux d st frags nsRes = specTraceAux d st frags nsRes := by
  induction frags with
  | nil =>
    intro st nsRes _
    cases d <;> simp [applyConfigChangeAux, applyLoop, specTraceAux, lastDeferred]
  | cons f fs ih =>
    intro st nsRes h
    have hfs : ∀ g ∈ fs, actedOn g = true →
        g.mappingRes.isSome = true ∧ g.convertOk = true :=
      fun g hg => h g (List.mem_cons_of_mem f hg)
    by_cases hact : actedOn f = true
    · obtain ⟨hms, hc⟩ := h f (List.mem_cons_self f fs) hact
      obtain ⟨m, hm⟩ := Option.isSome_iff_exists.mp hms
      obtain ⟨h1, obj, hdec, hreg⟩ := actedOn_true_elim hact
      by_cases hdefer : isDeferredNs d f = true
      · have hparts : (d = true ∧ m.scopeName = "root") ∧ obj.gvk.kind = "Namespace" := by
          simpa [isDeferredNs, fragMapping, fragObj, hm, hdec] using hdefer
        obtain ⟨⟨hd, hs⟩, hk⟩ := hparts
        subst hd
        rw [aux_congr true st (m, obj) f fs nsRes
            (applyLoop_defer st f fs obj m h1 hdec hreg hm hc hs hk),
          specTraceAux_defer st f fs nsRes obj m h1 hdec hreg hm hs hk]
        exact ih (m, obj) nsRes hfs
      · have hnd : isDeferredNs d f = false := by simpa using hdefer
        by_cases hfatal : fatalFor d f = true
        · rw [aux_fatal d st f fs nsRes (callFor d f)
              (applyLoop_fatal d st f fs obj m h1 hdec hreg hm hc hnd hfatal),
            specTraceAux_fatal d st f fs nsRes hact hnd hfatal]
        · have hnf : fatalFor d f = false := by simpa using hfatal
          rw [aux_cons d st f fs nsRes (callFor d f)
              (applyLoop_cont d st f fs obj m h1 hdec hreg hm hc hnd hnf),
            specTraceAux_cont d st f fs nsRes hact hnd hnf]
          rw [ih st nsRes hfs]
    · have hact2 : actedOn f = false := by simpa using hact
      rw [aux_congr d st st f fs nsRes (applyLoop_skip d st f fs hact2),
        specTraceAux_skip d st f fs nsRes hact2]
      exact ih st nsRes hfs

/-- `applyConfigChange` agrees with the spec-side trace when every
acted-on document resolves its mapping and converts. -/
theorem applyConfigChange_eq_specTrace (d : Bool) (frags : List Fragment)
    (nsRes : Option KubeErrKind)
    (h : ∀ f ∈ frags, actedOn f = true →
      f.mappingRes.isSome = true ∧ f.convertOk = true) :
    applyConfigChange d frags nsRes = specTrace d frags nsRes :=
  applyAux_eq_spec d frags (zeroMapping, zeroObj) nsRes h

/-! ## General helper lemmas about calls and the spec-side trace -/

theorem callFor_kindOf (d : Bool) (f : Fragment) :
    (callFor d f).kindOf = (fragObj f).gvk.kind := by
  by_cases hs : (fragMapping f).scopeName = "root" <;> cases d <;>
    simp [callFor, hs, Call.kindOf]

theorem callFor_nameOf (d : Bool) (f : Fragment) :
    (callFor d f).nameOf = (fragObj f).name := by
  by_cases hs : (fragMapping f).scopeName = "root" <;> cases d <;>
    simp [callFor, hs, Call.nameOf]

theorem callFor_create (f : Fragment) : (callFor false f).isDelete = false := by
  by_cases hs : (fragMapping f).scopeName = "root" <;>
    simp [callFor, hs, Call.isDelete]

theorem takeWhile_all {α : Type} (p : α → Bool) :
    ∀ (l : List α), (∀ x ∈ l, p x = true) → l.takeWhile p = l := by
  intro l
  induction l with
  | nil => intro _; rfl
  | cons a as ih =>
    intro h
    rw [List.takeWhile_cons_of_pos (h a (List.mem_cons_self a as))]
    rw [ih (fun x hx => h x (List.mem_cons_of_mem a hx))]

theorem dropWhile_all {α : Type} (p : α → Bool) :
    ∀ (l : List α), (∀ x ∈ l, p x = true) → l.dropWhile p = [] := by
  intro l
  induction l with
  | nil => intro _; rfl
  | cons a as ih =>
    intro h
    rw [List.dropWhile_cons_of_pos (h a (List.mem_cons_self a as))]
    exact ih (fun x hx => h x (List.mem_cons_of_mem a hx))

theorem filter_all {α : Type} (p : α → Bool) :
    ∀ (l : List α), (∀ x ∈ l, p x = true) → l.filter p = l := by
  intro l
  induction l with
  | nil => intro _; rfl
  | cons a as ih =>
    intro h
    rw [List.filter_cons_of_pos (h a (List.mem_cons_self a as))]
    rw [ih (fun x hx => h x (List.mem_cons_of_mem a hx))]

theorem dropWhile_head_false {α : Type} (p : α → Bool) :
    ∀ (l : List α) {x : α} {xs : List α}, l.dropWhile p = x :: xs → p x = false := by
  intro l
  induction l with
  | nil => intro x xs h; simp [List.dropWhile] at h
  | cons a as ih =>
    intro x xs h
    by_cases hp : p a = true
    · rw [List.dropWhile_cons_of_pos hp] at h
      exact ih h
    · rw [List.dropWhile_cons_of_neg hp] at h
      cases h
      simpa using hp

theorem lastDeferred_all (d : Bool) :
    ∀ (l : List Fragment) (st : Mapping × DecodedObj),
      (∀ f ∈ l, isDeferredNs d f = false) → lastDeferred d st l = st := by
  intro l
  induction l with
  | nil => intro st _; rfl
  | cons a as ih =>
    intro st h
    rw [lastDeferred]
    rw [if_neg (by simp [h a (List.mem_cons_self a as)])]
    exact ih st (fun x hx => h x (List.mem_cons_of_mem a hx))

theorem mem_loopCalls_elim {d : Bool} {frags : List Fragment} {c : Call}
    (hc : c ∈ (((frags.filter actedOn).takeWhile (keepGoing d)).filter
        (fun f => !isDeferredNs d f)).map (callFor d)) :
    ∃ f, f ∈ frags ∧ actedOn f = true ∧ isDeferredNs d f = false
      ∧ c = callFor d f := by
  obtain ⟨f, hf, hcall⟩ := List.mem_map.mp hc
  obtain ⟨hfpre, hndB⟩ := List.mem_filter.mp hf
  have hfacted : f ∈ frags.filter actedOn :=
    (List.takeWhile_prefix (keepGoing d)).subset hfpre
  obtain ⟨hffrags, hacted⟩ := List.mem_filter.mp hfacted
  exact ⟨f, hffrags, hacted, by simpa using hndB, hcall.symm⟩

theorem nsDelete_impossible {d : Bool} {f : Fragment}
    (hnd : isDeferredNs d f = false)
    (hsc : (fragObj f).gvk.kind = "Namespace" → (fragMapping f).scopeName = "root")
    (hdel : (callFor d f).isDelete = true)
    (hkind : (callFor d f).kindOf = "Namespace") : False := by
  cases d with
  | false => rw [callFor_create f] at hdel; simp at hdel
  | true =>
    have hk : (fragObj f).gvk.kind = "Namespace" := by
      rw [callFor_kindOf] at hkind; exact hkind
    have hs := hsc hk
    simp [isDeferredNs, hs, hk] at hnd

/-- In the spec-side trace (and hence, through
`applyConfigChange_eq_specTrace`, in the implementation), any delete call
for a Namespace-kind object is the last call of the batch and never names
`"default"`, provided discovery reports Namespace kinds as
cluster-scoped. -/
theorem specTrace_nsDelete_cases (d : Bool) (frags : List Fragment)
    (nsRes : Option KubeErrKind)
    (hns : ∀ f ∈ frags, actedOn f = true →
      (fragObj f).gvk.kind = "Namespace" → (fragMapping f).scopeName = "root")
    {c : Call} (hc : c ∈ (specTrace d frags nsRes).1)
    (hdel : c.isDelete = true) (hkind : c.kindOf = "Namespace") :
    (specTrace d frags nsRes).1.getLast? = some c ∧ c.nameOf ≠ "default" := by
  simp only [specTrace, specTraceAux] at hc ⊢
  cases hdrop : (frags.filter actedOn).dropWhile (keepGoing d) with
  | cons g gs =>
    simp only [hdrop] at hc ⊢
    rcases List.mem_append.mp hc with hc1 | hc2
    · obtain ⟨f, hffrags, hacted, hnd, hcf⟩ := mem_loopCalls_elim hc1
      subst hcf
      exact (nsDelete_impossible hnd (hns f hffrags hacted) hdel hkind).elim
    · have hcg : c = callFor d g := by simpa using hc2
      subst hcg
      have hkeep : keepGoing d g = false := dropWhile_head_false _ _ hdrop
      have hgnd : isDeferredNs d g = false := by
        have h2 : isDeferredNs d g = false ∧ fatalFor d g = true := by
          simpa [keepGoing] using hkeep
        exact h2.1
      have hgfrags : g ∈ frags.filter actedOn := by
        have : g ∈ (frags.filter actedOn).dropWhile (keepGoing d) := by
          rw [hdrop]; exact List.mem_cons_self g gs
        exact (List.dropWhile_suffix (keepGoing d)).subset this
      obtain ⟨hgf, hgacted⟩ := List.mem_filter.mp hgfrags
      exact (nsDelete_impossible hgnd (hns g hgf hgacted) hdel hkind).elim
  | nil =>
    simp only [hdrop] at hc ⊢
    cases d with
    | false =>
      simp only [Bool.false_eq_true, if_false] at hc ⊢
      obtain ⟨f, hffrags, hacted, hnd, hcf⟩ := mem_loopCalls_elim hc
      subst hcf
      exact (nsDelete_impossible hnd (hns f hffrags hacted) hdel hkind).elim
    | true =>
      by_cases hdef :
          (lastDeferred true (zeroMapping, zeroObj)
            ((frags.filter actedOn).takeWhile (keepGoing true))).2.name = "default"
      · simp only [if_pos hdef, if_true] at hc ⊢
        obtain ⟨f, hffrags, hacted, hnd, hcf⟩ := mem_loopCalls_elim hc
        subst hcf
        exact (nsDelete_impossible hnd (hns f hffrags hacted) hdel hkind).elim
      · simp only [if_neg hdef, if_true] at hc ⊢
        rcases List.mem_append.mp hc with hc1 | hc2
        · obtain ⟨f, hffrags, hacted, hnd, hcf⟩ := mem_loopCalls_elim hc1
          subst hcf
          exact (nsDelete_impossible hnd (hns f hffrags hacted) hdel hkind).elim
        · have hcfin : c = Call.deleteRoot
              (lastDeferred true (zeroMapping, zeroObj)
                ((frags.filter actedOn).takeWhile (keepGoing true))).1.resource
              (lastDeferred true (zeroMapping, zeroObj)
                ((frags.filter actedOn).takeWhile (keepGoing true))).2.name
              (lastDeferred true (zeroMapping, zeroObj)
                ((frags.filter actedOn).takeWhile (keepGoing true))).2.gvk.kind := by
            simpa using hc2
          constructor
          · rw [hcfin, List.getLast?_concat]
          · rw [hcfin]
            simpa [Call.nameOf] using hdef

/-- Every call emitted inside the loop is for a document whose decoded
kind matched the allow-list pattern. -/
theorem applyLoop_calls_match (d : Bool) :
    ∀ (frags : List Fragment) (st : Mapping × DecodedObj) (c : Call),
      c ∈ (applyLoop d st frags).1 → matchesAccepted c.kindOf = true := by
  intro frags
  induction frags with
  | nil => intro st c hc; simp [applyLoop] at hc
  | cons f fs ih =>
    intro st c hc
    by_cases hact : actedOn f = true
    · obtain ⟨h1, obj, hdec, hreg⟩ := actedOn_true_elim hact
      cases hm : f.mappingRes with
      | none => simp [applyLoop, h1, hdec, hreg, hm] at hc
      | some m =>
        cases hcv : f.convertOk with
        | false => simp [applyLoop, h1, hdec, hreg, hm, hcv] at hc
        | true =>
          by_cases hdefer : isDeferredNs d f = true
          · have hparts : (d = true ∧ m.scopeName = "root")
                ∧ obj.gvk.kind = "Namespace" := by
              simpa [isDeferredNs, fragMapping, fragObj, hm, hdec] using hdefer
            obtain ⟨⟨hd, hs⟩, hk⟩ := hparts
            subst hd
            rw [applyLoop_defer st f fs obj m h1 hdec hreg hm hcv hs hk] at hc
            exact ih (m, obj) c hc
          · have hnd : isDeferredNs d f = false := by simpa using hdefer
            by_cases hfat : fatalFor d f = true
            · rw [applyLoop_fatal d st f fs obj m h1 hdec hreg hm hcv hnd hfat] at hc
              have hcf : c = callFor d f := by simpa using hc
              subst hcf
              simpa [callFor_kindOf, fragObj, hdec] using hreg
            · have hnf : fatalFor d f = false := by simpa using hfat
              rw [applyLoop_cont d st f fs obj m h1 hdec hreg hm hcv hnd hnf] at hc
              rcases List.mem_cons.mp hc with hcc | hcc
              · subst hcc
                simpa [callFor_kindOf, fragObj, hdec] using hreg
              · exact ih st c hcc
    · have hact2 : actedOn f = false := by simpa using hact
      rw [applyLoop_skip d st f fs hact2] at hc
      exact ih st c hc

/-- A loop that delivers every queued event (with enough iterations)
sends exactly the queue, in order. -/
theorem streamRun_delivers (s : EventsResponse → Bool)
    (hok : ∀ ev, s ev = true) :
    ∀ q : List EventsResponse, (streamRun s q.length q).1 = q := by
  intro q
  induction q with
  | nil => rfl
  | cons e rest ih => simp [streamRun, streamStep, hok e, ih]

/-- The collection loop of `getSVCPort` returns the declared node-port
values in declaration order, when every declared value is an int64. -/
theorem extract_eq_filterMap :
    ∀ ports : List SvcPort, (∀ p ∈ ports, p.nodePort ≠ some NodePortVal.other) →
      extractNodePorts ports = ports.filterMap declaredVal := by
  intro ports
  induction ports with
  | nil => intro _; rfl
  | cons p rest ih =>
    intro h
    have hrest := fun q hq => h q (List.mem_cons_of_mem p hq)
    cases hnp : p.nodePort with
    | none =>
      simp [extractNodePorts, declaredVal, hnp, List.filterMap_cons, ih hrest]
    | some v =>
      cases v with
      | int64 n =>
        simp [extractNodePorts, declaredVal, hnp, npVal, List.filterMap_cons,
          ih hrest]
      | other => exact absurd hnp (h p (List.mem_cons_self p rest))

theorem strData_append (a b : String) : (a ++ b).data = a.data ++ b.data := by
  cases a; cases b; rfl

theorem portMsg_zero (ports : List Int) (h : ports.length = 0) :
    portMsg ports = "" := by
  simp [portMsg, h]

theorem portMsg_one (ports : List Int) (h : ports.length = 1) :
    portMsg ports
      = "The service is possibly available on port: " ++ fmtPorts ports := by
  simp [portMsg, h]

theorem portMsg_many (ports : List Int) (h : 1 < ports.length) :
    portMsg ports
      = "The service is possibly available on one of the following ports: "
        ++ fmtPorts ports := by
  have h1 : ¬ ports.length = 1 := by omega
  simp [portMsg, h1, h]

theorem portMsg_zero_ne_pos (ps qs : List Int) (h0 : ps.length = 0)
    (h1 : 0 < qs.length) : portMsg ps ≠ portMsg qs := by
  intro heq
  rw [portMsg_zero ps h0] at heq
  rcases Nat.lt_or_ge 1 qs.length with hmany | hone
  · rw [portMsg_many qs hmany] at heq
    have hlen := congrArg String.length heq
    rw [String.length_append] at hlen
    have hp : 0 <
        ("The service is possibly available on one of the following ports: " : String).length := by
      decide
    have h0len : ("" : String).length = 0 := rfl
    omega
  · have hq1 : qs.length = 1 := by omega
    rw [portMsg_one qs hq1] at heq
    have hlen := congrArg String.length heq
    rw [String.length_append] at hlen
    have hp : 0 <
        ("The service is possibly available on port: " : String).length := by
      decide
    have h0len : ("" : String).length = 0 := rfl
    omega

theorem portMsg_one_ne_many (ps qs : List Int) (h1 : ps.length = 1)
    (h2 : 1 < qs.length) : portMsg ps ≠ portMsg qs := by
  intro heq
  rw [portMsg_one ps h1, portMsg_many qs h2] at heq
  have hdata := congrArg String.data heq
  rw [strData_append, strData_append] at hdata
  have hidx := congrArg (fun l => l.get? 37) hdata
  have hlt1 : 37 <
      ("The service is possibly available on port: " : String).data.length := by
    decide
  have hlt2 : 37 <
      ("The service is possibly available on one of the following ports: " : String).data.length := by
    decide
  simp only [List.get?_eq_getElem?] at hidx
  rw [List.getElem?_append_left hlt1, List.getElem?_append_left hlt2] at hidx
  have hval1 :
      ("The service is possibly available on port: " : String).data[37]?
        = some 'p' := by decide
  have hval2 :
      ("The service is possibly available on one of the following ports: " : String).data[37]?
        = some 'o' := by decide
  rw [hval1, hval2] at hidx
  simp at hidx

/-! ## Claim theorems -/

/-- C1 counterexample: in a create batch of three allow-listed,
successfully decoded documents with no mutation failure anywhere, only
the first document is applied, because the second document's
REST-mapping resolution fails and ends the batch (reporting success);
the claim predicts that all three documents are applied. -/
theorem C1_counterexample :
    applyConfigChange false [c1cm, c1sec, c1svc] none
      = ([Call.createNs ⟨"", "v1", "configmaps"⟩ "default" "cm1" "ConfigMap"],
         .success)
    ∧ actedOn c1cm = true ∧ actedOn c1sec = true ∧ actedOn c1svc = true
    ∧ c1cm.mutationRes = none ∧ c1sec.mutationRes = none
    ∧ c1svc.mutationRes = none := by decide

/-- C1 (amended): for every manifest batch in which every acted-on
document's resource-mapping resolution and unstructured conversion
succeed, the calls issued by `applyConfigChange` are exactly the
spec-side trace `specTrace`: the allow-listed, successfully decoded
documents in textual order up to and including the first fatally
failing mutation (whose call is issued and aborts the batch — so the
applied-and-succeeded documents are those strictly before it), with
root-scoped Namespace deletes deferred — no in-loop call — and the last
deferred Namespace (or the zero record) deleted after the loop unless
its name is "default".  Without the resolution hypothesis a mapping
failure truncates the batch at that document while reporting success. -/
theorem C1_trace_exact (d : Bool) (frags : List Fragment)
    (nsRes : Option KubeErrKind)
    (h : ∀ f ∈ frags, actedOn f = true →
      f.mappingRes.isSome = true ∧ f.convertOk = true) :
    applyConfigChange d frags nsRes = specTrace d frags nsRes :=
  applyConfigChange_eq_specTrace d frags nsRes h

/-- C1 witness: the amended claim applied to a one-document create
batch. -/
theorem C1_witness :
    applyConfigChange false [c1w] none = specTrace false [c1w] none :=
  C1_trace_exact false [c1w] none (by decide)

/-- C2 counterexample: a delete batch with two cluster-scoped Namespace
documents "a" then "b": the deferral slot is overwritten, so only the
later Namespace "b" is deleted and no delete call for the Namespace
named "a" (which is not "default") is ever issued — contradicting the
claim that its delete call occurs (after all other deletes). -/
theorem C2_counterexample :
    applyConfigChange true [c2nsA, c2nsB] none
      = ([Call.deleteRoot ⟨"", "v1", "namespaces"⟩ "b" "Namespace"], .success)
    ∧ (fragObj c2nsA).gvk.kind = "Namespace"
    ∧ (fragObj c2nsA).name = "a" := by decide

/-- C2 (amended): in any batch (create or delete) whose acted-on
documents resolve and convert, and whose Namespace-kind documents are
reported cluster-scoped by discovery, any delete call for a
Namespace-kind object is the last call of the batch — so it occurs
strictly after every other call — and never names "default"; and the
scenario-E batch whose only document is a Namespace named "default"
issues no call at all and reports success. -/
theorem C2_ns_delete_last (d : Bool) (frags : List Fragment)
    (nsRes : Option KubeErrKind)
    (h : ∀ f ∈ frags, actedOn f = true →
      f.mappingRes.isSome = true ∧ f.convertOk = true)
    (hns : ∀ f ∈ frags, actedOn f = true →
      (fragObj f).gvk.kind = "Namespace" → (fragMapping f).scopeName = "root") :
    (∀ c ∈ (applyConfigChange d frags nsRes).1,
        c.isDelete = true → c.kindOf = "Namespace" →
        (applyConfigChange d frags nsRes).1.getLast? = some c
          ∧ c.nameOf ≠ "default")
    ∧ applyConfigChange true [nsDefaultFrag] none = ([], .success) := by
  constructor
  · intro c hc hdel hkind
    rw [applyConfigChange_eq_specTrace d frags nsRes h] at hc ⊢
    exact specTrace_nsDelete_cases d frags nsRes hns hc hdel hkind
  · decide

/-- C2 witness: in the delete batch {ConfigMap, Namespace "foo"} the
Namespace delete call is the last call of the batch and does not name
"default". -/
theorem C2_witness :
    (applyConfigChange true [c2cm, c2nsFoo] none).1.getLast?
        = some (Call.deleteRoot ⟨"", "v1", "namespaces"⟩ "foo" "Namespace")
    ∧ (Call.deleteRoot ⟨"", "v1", "namespaces"⟩ "foo" "Namespace").nameOf
        ≠ "default" :=
  (C2_ns_delete_last true [c2cm, c2nsFoo] none (by decide) (by decide)).1
    (Call.deleteRoot ⟨"", "v1", "namespaces"⟩ "foo" "Namespace") (by decide)
    rfl rfl

/-- C3: evaluation at the failing input: a resolution failure on the
second document makes `applyConfigChange` return success (`return nil`)
after applying only the first document, silently abandoning the third,
still-applicable document — instead of the batch-aborting error the
claim requires. -/
theorem C3_discovery_failure_silent_success :
    applyConfigChange false [c3cm, c3sa, c3svc] none
      = ([Call.createNs ⟨"", "v1", "configmaps"⟩ "default" "c3" "ConfigMap"],
         .success)
    ∧ actedOn c3svc = true := by decide

/-- C4 counterexample: a delete batch whose only document is a
cluster-scoped Namespace "foo"; the deferred end-of-batch delete answers
NotFound and the whole batch fails — the claim required NotFound on
the deferred delete to be treated as success. -/
theorem C4_counterexample :
    applyConfigChange true [c4ns] (some .notFound)
      = ([Call.deleteRoot ⟨"", "v1", "namespaces"⟩ "foo" "Namespace"],
         .failure) := by decide

/-- C4 (amended): AlreadyExists on an in-loop create and NotFound on an
in-loop delete are treated as success — the loop issues the call and
continues with the remaining documents unchanged — but the deferred
end-of-batch Namespace delete propagates any error, including NotFound,
as failure of the whole batch. -/
theorem C4_conflict_handling :
    (∀ (d : Bool) (st : Mapping × DecodedObj) (f : Fragment)
        (fs : List Fragment) (obj : DecodedObj) (m : Mapping),
      ¬(f.raw = "\n" ∨ f.raw = "") → f.decodeRes = .ok obj →
      matchesAccepted obj.gvk.kind = true → f.mappingRes = some m →
      f.convertOk = true → isDeferredNs d f = false →
      ((d = false ∧ f.mutationRes = some .alreadyExists) ∨
       (d = true ∧ f.mutationRes = some .notFound)) →
      applyLoop d st (f :: fs)
        = (callFor d f :: (applyLoop d st fs).1, (applyLoop d st fs).2))
    ∧ (∀ (frags : List Fragment) (tr : List Call) (fin : Mapping × DecodedObj),
      applyLoop true (zeroMapping, zeroObj) frags = (tr, .finished fin) →
      fin.2.name ≠ "default" →
      applyConfigChange true frags (some .notFound)
        = (tr ++ [Call.deleteRoot fin.1.resource fin.2.name fin.2.gvk.kind],
           .failure)) := by
  constructor
  · intro d st f fs obj m h1 hdec hreg hm hc hnd hmut
    have hnf : fatalFor d f = false := by
      rcases hmut with ⟨hd, hmr⟩ | ⟨hd, hmr⟩ <;> subst hd <;> simp [fatalFor, hmr]
    exact applyLoop_cont d st f fs obj m h1 hdec hreg hm hc hnd hnf
  · intro frags tr fin hloop hdef
    simp [applyConfigChange, applyConfigChangeAux, hloop, hdef]

/-- C4 witness: a ConfigMap create answering AlreadyExists is issued and
the loop continues with the rest of the batch. -/
theorem C4_witness :
    applyLoop false (zeroMapping, zeroObj) [c4cm, c4sec]
      = (callFor false c4cm
          :: (applyLoop false (zeroMapping, zeroObj) [c4sec]).1,
         (applyLoop false (zeroMapping, zeroObj) [c4sec]).2) :=
  C4_conflict_handling.1 false (zeroMapping, zeroObj) c4cm [c4sec]
    ⟨⟨"", "v1", "ConfigMap"⟩, "cm4", "ns4"⟩
    ⟨⟨"", "v1", "configmaps"⟩, "namespace"⟩
    (by decide) rfl (by decide) rfl rfl (by decide)
    (Or.inl ⟨rfl, rfl⟩)

/-- The single event of the product-install background task echoes the
operation id and carries the expected severity. -/
theorem installEvents_shape (req : ApplyRuleRequest) (env : OpEnv)
    (hop : req.opName = installLinkerdCommand) :
    (installEvents req env).length = 1
    ∧ ∀ ev ∈ installEvents req env,
        ev.operationId = req.operationId
          ∧ ev.eventType = expectedSeverity req env := by
  cases hin : env.installErr <;>
    simp [installEvents, expectedSeverity, hop, hin]

/-- The single event of the shared sample-app background task echoes the
operation id and carries the expected severity. -/
theorem sampleAppEvents_shape (req : ApplyRuleRequest) (env : OpEnv)
    (a : String) (hop : ¬ req.opName = installLinkerdCommand) :
    (sampleAppEvents req env a).length = 1
    ∧ ∀ ev ∈ sampleAppEvents req env a,
        ev.operationId = req.operationId
          ∧ ev.eventType = expectedSeverity req env := by
  cases hdel : req.deleteOp <;> cases hle : env.labelErr <;>
    cases hae : env.applyErr <;> cases hpr : env.portsRes <;>
      simp [sampleAppEvents, expectedSeverity, portsOk, hop, hdel, hle, hae, hpr]

/-- C5 counterexample: an HTTP Bin deploy whose synchronous template
rendering fails returns the error on the initiating call — not a
response echoing the operation id — and starts no background task, so
the claim's unconditional immediate-acknowledgment contract for the
sample-application variants fails. -/
theorem C5_counterexample :
    (ApplyOperation c5req c5env).response = .error "template failure"
    ∧ (ApplyOperation c5req c5env).backgroundStarted = false := by decide

/-- C5 (amended): for the product install (whose manifest is produced
inside the background task) and for every sample-application variant
whose synchronous manifest resolution succeeds, `ApplyOperation` returns
a response echoing exactly the request's operation id and spawns the
background task; the task pushes exactly one event, carrying that
operation id, whose severity is ERROR when the task failed, WARN when a
deploy succeeded but the port lookup failed, and INFO on success — so a
background failure is never surfaced on the initiating call. -/
theorem C5_async_ack_and_events (req : ApplyRuleRequest) (env : OpEnv)
    (hop : req.opName = installLinkerdCommand
      ∨ req.opName = installBooksAppCommand
      ∨ req.opName = installHTTPBinApp
      ∨ req.opName = installIstioBookInfoApp
      ∨ req.opName = installEmojiVotoCommand)
    (hman : ¬ req.opName = installLinkerdCommand → env.manifestErr = none) :
    (ApplyOperation req env).response = .ok req.operationId
    ∧ (ApplyOperation req env).backgroundStarted = true
    ∧ (ApplyOperation req env).events.length = 1
    ∧ ∀ ev ∈ (ApplyOperation req env).events,
        ev.operationId = req.operationId
          ∧ ev.eventType = expectedSeverity req env := by
  rcases hop with hop | hop | hop | hop | hop
  · have hc : installLinkerdCommand ∈ supportedOps := by decide
    have h1 : ¬ installLinkerdCommand = customOpCommand := by decide
    have hred : ApplyOperation req env
        = ⟨.ok req.operationId, installEvents req env, true, true⟩ := by
      simp [ApplyOperation, hop, hc, h1]
    rw [hred]
    exact ⟨rfl, rfl, (installEvents_shape req env hop).1,
      (installEvents_shape req env hop).2⟩
  · have hc : installBooksAppCommand ∈ supportedOps := by decide
    have h1 : ¬ installBooksAppCommand = customOpCommand := by decide
    have h2 : ¬ installBooksAppCommand = installLinkerdCommand := by decide
    have hne : ¬ req.opName = installLinkerdCommand := by rw [hop]; decide
    have hm : env.manifestErr = none := hman hne
    have hred : ApplyOperation req env
        = ⟨.ok req.operationId,
           sampleAppEvents req env "Linkerd Books App", true, true⟩ := by
      simp [ApplyOperation, hop, hc, h1, h2, hm]
    rw [hred]
    exact ⟨rfl, rfl, (sampleAppEvents_shape req env "Linkerd Books App" hne).1,
      (sampleAppEvents_shape req env "Linkerd Books App" hne).2⟩
  · have hc : installHTTPBinApp ∈ supportedOps := by decide
    have h1 : ¬ installHTTPBinApp = customOpCommand := by decide
    have h2 : ¬ installHTTPBinApp = installLinkerdCommand := by decide
    have h3 : ¬ installHTTPBinApp = installBooksAppCommand := by decide
    have hne : ¬ req.opName = installLinkerdCommand := by rw [hop]; decide
    have hm : env.manifestErr = none := hman hne
    have hred : ApplyOperation req env
        = ⟨.ok req.operationId,
           sampleAppEvents req env "HTTP Bin App", true, true⟩ := by
      simp [ApplyOperation, hop, hc, h1, h2, h3, hm]
    rw [hred]
    exact ⟨rfl, rfl, (sampleAppEvents_shape req env "HTTP Bin App" hne).1,
      (sampleAppEvents_shape req env "HTTP Bin App" hne).2⟩
  · have hc : installIstioBookInfoApp ∈ supportedOps := by decide
    have h1 : ¬ installIstioBookInfoApp = customOpCommand := by decide
    have h2 : ¬ installIstioBookInfoApp = installLinkerdCommand := by decide
    have h3 : ¬ installIstioBookInfoApp = installBooksAppCommand := by decide
    have h4 : ¬ installIstioBookInfoApp = installHTTPBinApp := by decide
    have hne : ¬ req.opName = installLinkerdCommand := by rw [hop]; decide
    have hm : env.manifestErr = none := hman hne
    have hred : ApplyOperation req env
        = ⟨.ok req.operationId,
           sampleAppEvents req env "Istio canonical Book Info App",
           true, true⟩ := by
      simp [ApplyOperation, hop, hc, h1, h2, h3, h4, hm]
    rw [hred]
    exact ⟨rfl, rfl,
      (sampleAppEvents_shape req env "Istio canonical Book Info App" hne).1,
      (sampleAppEvents_shape req env "Istio canonical Book Info App" hne).2⟩
  · have hc : installEmojiVotoCommand ∈ supportedOps := by decide
    have h1 : ¬ installEmojiVotoCommand = customOpCommand := by decide
    have h2 : ¬ installEmojiVotoCommand = installLinkerdCommand := by decide
    have h3 : ¬ installEmojiVotoCommand = installBooksAppCommand := by decide
    have h4 : ¬ installEmojiVotoCommand = installHTTPBinApp := by decide
    have h5 : ¬ installEmojiVotoCommand = installIstioBookInfoApp := by decide
    have hne : ¬ req.opName = installLinkerdCommand := by rw [hop]; decide
    have hm : env.manifestErr = none := hman hne
    have hred : ApplyOperation req env
        = ⟨.ok req.operationId,
           sampleAppEvents req env "Emojivoto App", true, true⟩ := by
      simp [ApplyOperation, hop, hc, h1, h2, h3, h4, h5, hm]
    rw [hred]
    exact ⟨rfl, rfl, (sampleAppEvents_shape req env "Emojivoto App" hne).1,
      (sampleAppEvents_shape req env "Emojivoto App" hne).2⟩

/-- C5 witness: an Emojivoto deploy whose port lookup fails still
acknowledges with the operation id and spawns the background task. -/
theorem C5_witness :
    (ApplyOperation c5wreq c5wenv).response = .ok "op5w"
    ∧ (ApplyOperation c5wreq c5wenv).backgroundStarted = true := by
  have h := C5_async_ack_and_events c5wreq c5wenv
    (Or.inr (Or.inr (Or.inr (Or.inr rfl)))) (fun _ => rfl)
  exact ⟨h.1, h.2.1⟩

/-- C7: a request whose operation key is not in the registry is rejected
synchronously with an error message naming the bad key, spawning no
background task and touching the cluster on no path; a custom-YAML
request with an empty body is likewise rejected synchronously. -/
theorem C7_validation (req : ApplyRuleRequest) (env : OpEnv) :
    (supportedOps.contains req.opName = false →
      ApplyOperation req env
        = ⟨.error ("operation id: " ++ req.operationId ++ ", error: "
            ++ req.opName ++ " is not a valid operation name"),
           [], false, false⟩)
    ∧ (req.opName = customOpCommand → req.customBody = "" →
      ApplyOperation req env
        = ⟨.error ("operation id: " ++ req.operationId
            ++ ", error: yaml body is empty for " ++ req.opName
            ++ " operation"),
           [], false, false⟩) := by
  constructor
  · intro h
    have hmem : ¬ req.opName ∈ supportedOps := by simpa using h
    simp [ApplyOperation, hmem]
  · intro h1 h2
    have hc : customOpCommand ∈ supportedOps := by decide
    simp [ApplyOperation, h1, h2, hc]

/-- C7 witness: the unknown key "no_such_op" is rejected with the
message naming it, no events, no background task, no cluster access. -/
theorem C7_witness :
    ApplyOperation c7req c7env
      = ⟨.error ("operation id: " ++ c7req.operationId ++ ", error: "
          ++ c7req.opName ++ " is not a valid operation name"),
         [], false, false⟩ :=
  (C7_validation c7req c7env).1 (by decide)

/-- C6 counterexample: a successfully decoded document of kind
"ServiceList" — which is not a member of the sixteen-kind enumerated
allow-list — is nevertheless acted upon (created), because the
unanchored pattern matches the substring "Service" inside
"ServiceList". -/
theorem C6_counterexample :
    applyConfigChange false [c6svcList] none
      = ([Call.createNs ⟨"", "v1", "servicelists"⟩ "ns6" "sl" "ServiceList"],
         .success)
    ∧ ¬ ("ServiceList" ∈ acceptedK8sTypes) := by decide

/-- C6 (amended): every call issued by `applyConfigChange` — except
possibly the trailing deferred-namespace delete, which is the last call
of the batch — is for a document whose decoded kind is matched by the
unanchored allow-list pattern (one of the sixteen names occurring as a
substring of the kind, which is weaker than membership in the enumerated
set); a decoded document whose kind the pattern does not match (such as
Pod) is skipped and the loop continues unchanged with the remaining
documents. -/
theorem C6_pattern_gate :
    (∀ (d : Bool) (frags : List Fragment) (nsRes : Option KubeErrKind)
        (c : Call),
      c ∈ (applyConfigChange d frags nsRes).1 →
      matchesAccepted c.kindOf = true
        ∨ (applyConfigChange d frags nsRes).1.getLast? = some c)
    ∧ (∀ (d : Bool) (st : Mapping × DecodedObj) (f : Fragment)
        (fs : List Fragment) (obj : DecodedObj),
      ¬(f.raw = "\n" ∨ f.raw = "") → f.decodeRes = .ok obj →
      matchesAccepted obj.gvk.kind = false →
      applyLoop d st (f :: fs) = applyLoop d st fs) := by
  constructor
  · intro d frags nsRes c hc
    cases hloop : applyLoop d (zeroMapping, zeroObj) frags with
    | mk tr out =>
      have htr : ∀ x ∈ tr, matchesAccepted x.kindOf = true := by
        intro x hx
        apply applyLoop_calls_match d frags (zeroMapping, zeroObj)
        rw [hloop]
        exact hx
      cases out with
      | abortedErr =>
        have htrace : (applyConfigChange d frags nsRes).1 = tr := by
          simp [applyConfigChange, applyConfigChangeAux, hloop]
        rw [htrace] at hc
        exact Or.inl (htr c hc)
      | abortedNil =>
        have htrace : (applyConfigChange d frags nsRes).1 = tr := by
          simp [applyConfigChange, applyConfigChangeAux, hloop]
        rw [htrace] at hc
        exact Or.inl (htr c hc)
      | finished fin =>
        cases d with
        | false =>
          have htrace : (applyConfigChange false frags nsRes).1 = tr := by
            simp [applyConfigChange, applyConfigChangeAux, hloop]
          rw [htrace] at hc
          exact Or.inl (htr c hc)
        | true =>
          by_cases hdef : fin.2.name = "default"
          · have htrace : (applyConfigChange true frags nsRes).1 = tr := by
              simp [applyConfigChange, applyConfigChangeAux, hloop, hdef]
            rw [htrace] at hc
            exact Or.inl (htr c hc)
          · have htrace : (applyConfigChange true frags nsRes).1
                = tr ++ [Call.deleteRoot fin.1.resource fin.2.name
                    fin.2.gvk.kind] := by
              simp [applyConfigChange, applyConfigChangeAux, hloop, hdef]
            rw [htrace] at hc ⊢
            rcases List.mem_append.mp hc with hc1 | hc2
            · exact Or.inl (htr c hc1)
            · have hcfin : c = Call.deleteRoot fin.1.resource fin.2.name
                  fin.2.gvk.kind := by simpa using hc2
              subst hcfin
              exact Or.inr (List.getLast?_concat tr)
  · intro d st f fs obj h1 hdec hreg
    simp [applyLoop, h1, hdec, hreg]

/-- C6 witness: in the batch {ConfigMap "cm6", Pod "p6"} the issued
ConfigMap create is pattern-matched, and the Pod document is skipped
leaving the loop unchanged. -/
theorem C6_witness :
    (matchesAccepted (Call.createNs ⟨"", "v1", "configmaps"⟩ "ns6" "cm6"
          "ConfigMap").kindOf = true
      ∨ (applyConfigChange false [c6cm, c6pod] none).1.getLast?
          = some (Call.createNs ⟨"", "v1", "configmaps"⟩ "ns6" "cm6"
              "ConfigMap"))
    ∧ applyLoop false (zeroMapping, zeroObj) [c6pod]
        = applyLoop false (zeroMapping, zeroObj) [] := by
  constructor
  · exact C6_pattern_gate.1 false [c6cm, c6pod] none _ (by decide)
  · exact C6_pattern_gate.2 false (zeroMapping, zeroObj) c6pod []
      ⟨⟨"", "v1", "Pod"⟩, "p6", "ns6"⟩ (by decide) rfl (by decide)

/-- C8: when delivering the queue head fails, the loop re-enqueues the
failed event (so it is not lost) and terminates with an error; a
reconnected loop whose sends succeed delivers the whole remaining
queue — including the re-enqueued event — in order; and when no event is
available the loop sleeps the fixed interval and retries. -/
theorem C8_redelivery (s s2 : EventsResponse → Bool) (e : EventsResponse)
    (rest : List EventsResponse)
    (hfail : s e = false) (hok : ∀ ev, s2 ev = true) :
    streamStep s (e :: rest) = .errored (rest ++ [e]) e
    ∧ e ∈ rest ++ [e]
    ∧ (streamRun s2 (rest ++ [e]).length (rest ++ [e])).1 = rest ++ [e]
    ∧ streamStep s [] = .continued [] none true := by
  refine ⟨by simp [streamStep, hfail], by simp,
    streamRun_delivers s2 hok (rest ++ [e]), rfl⟩

/-- C8 witness: a single failed event is re-enqueued, survives the
stream error, and is delivered by the reconnected loop. -/
theorem C8_witness :
    streamStep (fun _ => false) [c8ev] = .errored [c8ev] c8ev
    ∧ c8ev ∈ ([c8ev] : List EventsResponse)
    ∧ (streamRun (fun _ => true) [c8ev].length [c8ev]).1 = [c8ev]
    ∧ streamStep (fun _ => false) ([] : List EventsResponse)
        = .continued [] none true := by
  have h := C8_redelivery (fun _ => false) (fun _ => true) c8ev []
    rfl (fun _ => rfl)
  simpa using h

/-- C9: for every retrieved Service whose declared node ports are
well-typed, `getSVCPort` returns exactly the declared node ports in
declaration order (possibly zero, one, or many), and the completion
message phrasing differs between the cases of zero (empty message),
exactly one, and more than one port. -/
theorem C9_node_ports (svc : SvcObj)
    (h : ∀ p ∈ svc.ports, p.nodePort ≠ some NodePortVal.other) :
    getSVCPort (.ok svc) = .ok (svc.ports.filterMap declaredVal)
    ∧ (∀ ports : List Int, ports.length = 0 → portMsg ports = "")
    ∧ (∀ ports : List Int, ports.length = 1 →
        portMsg ports
          = "The service is possibly available on port: " ++ fmtPorts ports)
    ∧ (∀ ports : List Int, 1 < ports.length →
        portMsg ports
          = "The service is possibly available on one of the following ports: "
            ++ fmtPorts ports)
    ∧ (∀ ps qs : List Int, ps.length = 0 → 0 < qs.length →
        portMsg ps ≠ portMsg qs)
    ∧ (∀ ps qs : List Int, ps.length = 1 → 1 < qs.length →
        portMsg ps ≠ portMsg qs) := by
  refine ⟨?_, portMsg_zero, portMsg_one, portMsg_many,
    portMsg_zero_ne_pos, portMsg_one_ne_many⟩
  simp [getSVCPort, extract_eq_filterMap svc.ports h]

/-- C9 witness: a Service with one declared node port and one port
without a node port yields exactly that port. -/
theorem C9_witness :
    getSVCPort (.ok c9svc) = .ok (c9svc.ports.filterMap declaredVal) :=
  (C9_node_ports c9svc (by decide)).1

/-- C10: a delete batch that contains no Namespace document (and runs
without fatal mutation, resolution, or conversion failures) still
executes the end-of-batch namespace-deletion branch — the recorded
deferred name is the empty string, which differs from "default" — so
after the per-document deletes it issues one delete call with the empty
object name against the zero-value resource mapping, and any error from
that call makes the whole batch report failure. -/
theorem C10_no_namespace_zero_delete (frags : List Fragment)
    (nsRes : Option KubeErrKind)
    (h : ∀ f ∈ frags, actedOn f = true →
      f.mappingRes.isSome = true ∧ f.convertOk = true)
    (hnoNs : ∀ f ∈ frags, actedOn f = true →
      (fragObj f).gvk.kind ≠ "Namespace")
    (hnofatal : ∀ f ∈ frags, fatalFor true f = false) :
    applyConfigChange true frags nsRes
      = ((frags.filter actedOn).map (callFor true)
          ++ [Call.deleteRoot zeroGVR "" ""],
         match nsRes with
         | some _ => .failure
         | none => .success) := by
  rw [applyConfigChange_eq_specTrace true frags nsRes h]
  have hnd : ∀ f ∈ frags.filter actedOn, isDeferredNs true f = false := by
    intro f hf
    obtain ⟨hfr, hact⟩ := List.mem_filter.mp hf
    have hk := hnoNs f hfr hact
    simp [isDeferredNs, hk]
  have hkeepAll : ∀ f ∈ frags.filter actedOn, keepGoing true f = true := by
    intro f hf
    have hfatal := hnofatal f (List.mem_filter.mp hf).1
    simp [keepGoing, hfatal]
  simp only [specTrace, specTraceAux]
  rw [takeWhile_all _ _ hkeepAll, dropWhile_all _ _ hkeepAll]
  rw [filter_all _ _ (fun f hf => by simp [hnd f hf])]
  rw [lastDeferred_all true _ (zeroMapping, zeroObj) hnd]
  simp [zeroMapping, zeroObj, zeroGVR]

/-- C10 witness: even the empty delete batch issues the zero-value
namespace delete, and an error from it fails the batch. -/
theorem C10_witness :
    applyConfigChange true [] (some KubeErrKind.other)
      = ([Call.deleteRoot zeroGVR "" ""], .failure) := by
  have h := C10_no_namespace_zero_delete [] (some KubeErrKind.other)
    (by decide) (by decide) (by decide)
  simpa using h
